import Mathlib

/-!
# Verification of the siren-nav navigation/reduction engine

Shallow embedding of the navigation core of the `siren-nav` repository:
the `reduce` algorithm, the `accept` and `follow` steps (`src/steps.ts`)
and the `SirenNav` builder class (the unnamed source file defining
`create`, `do`, `goto`, `sqaush`, `accept`, `follow`, `getURL`, `get`).

Promises are embedded as `Except NavError` values: a resolved promise is
`.ok`, a rejected one `.error`.  Asynchronous timing is not modelled; the
embedding captures the value-level semantics of each chain.

JavaScript objects used as header maps are embedded as insertion-ordered
association lists (`HeaderObj`).  Two models of the request configuration
are given:

* a pure value model (`Config`), adequate for every claim that only reads
  the configuration reached at the end of a chain, and
* a reference model (`ConfigRef` over an explicit `Heap`), which captures
  the aliasing produced by the shallow spread `{...state.config}` in the
  source's `accept`, needed for the frame/mutation claims.
-/

/-- A JS-object-style string map: insertion-ordered key/value pairs with
unique keys (the order is observable via JS object iteration and the
`Accept` header composition). -/
abbrev HeaderObj := List (String × String)

/-- `obj.hasOwnProperty(k)` on a `HeaderObj`. -/
def hasProp (h : HeaderObj) (k : String) : Bool :=
  h.any (fun p => p.1 == k)

/-- `obj[k]` read on a `HeaderObj` (`none` = `undefined`). -/
def getProp (h : HeaderObj) (k : String) : Option String :=
  (h.find? (fun p => p.1 == k)).map (fun p => p.2)

/-- `obj[k] = v` on a `HeaderObj`: updates an existing key in place
(keeping its position, as JS objects do) or appends a new key at the
end. -/
def setProp (h : HeaderObj) (k v : String) : HeaderObj :=
  match h with
  | [] => [(k, v)]
  | (k', v') :: rest =>
    if k' == k then (k, v) :: rest else (k', v') :: setProp rest k v

/-- A Siren link: a relation set and an `href` (shape of the
`siren-types` `Link` consumed by `follow`). -/
structure SirenLink where
  rel : List String
  href : String
deriving DecidableEq, Repr

/-- A Siren embedded sub-entity as consumed by `follow`: a relation set,
an optional direct `href` (`some` iff `entity.hasOwnProperty("href")`),
and the entity's own links (in which `getSelf` looks up a
self-reference).  `links = none` models an entity without a `links`
property. -/
structure SubEntity where
  rel : List String
  href : Option String
  links : Option (List SirenLink)
deriving DecidableEq, Repr

/-- A Siren hypermedia document as consumed by `follow`: optional
`entities` and `links` arrays (the source guards both with `|| []`). -/
structure Siren where
  entities : Option (List SubEntity)
  links : Option (List SirenLink)
deriving DecidableEq, Repr

/-- The request configuration carried by a `NavState`.  In the source it
is a dynamically-typed JS object; the three shapes that actually occur
are: an axios-style request config (`create`, `accept`), a sub-entity
substituted whole as the configuration (`follow`'s self-reference
branch), and — reachable only by running `accept` after that branch — a
sub-entity copy extended with a `headers` property. -/
inductive Config where
  | request (baseURL : Option String) (headers : Option HeaderObj)
  | entityData (e : SubEntity)
  | entityWithHeaders (e : SubEntity) (headers : HeaderObj)
deriving DecidableEq, Repr

/-- Modelled from the spec: `CacheHandle` — "a deferred/possibly-already-
resolved fetch of `current`, obtained from the shared cache at
construction time" (§3).  The embedding records the URI the handle was
acquired for and the document the fetch resolves to. -/
structure CacheEntry where
  uri : String
  doc : Siren
deriving DecidableEq, Repr

/-- Modelled from the spec: the resource cache, "an opaque collaborator
offering a single operation, `getOr(uri) -> CacheHandle`" (§5, §6); its
fetch behaviour is an arbitrary map from URIs to documents. -/
structure Cache where
  fetch : String → Siren

/-- Modelled from the spec: `getOr(uri: URI) -> CacheHandle` "returns a
(possibly pending) handle representing the resource at `uri`" (§6). -/
def Cache.getOr (c : Cache) (uri : String) : CacheEntry :=
  ⟨uri, c.fetch uri⟩

/-- Modelled from the spec: `NavState` (`src/state.ts`, not included):
"current URI, the API's root/base URI, the current request
configuration, and a handle to a (possibly cached) fetch of the current
resource" (§2, §3).  Field names follow the source's usage sites
(`state.cur`, `state.root`, `state.config`). -/
structure NavState where
  cur : String
  root : String
  config : Config
  cacheEntry : CacheEntry
deriving DecidableEq, Repr

/-- Navigation failures raised by the engine (§7): `follow`'s two error
shapes carry the relation name and the inspected document, exactly the
data interpolated into the source's `Error` messages; collaborator
failures propagate unchanged. -/
inductive NavError where
  | noMatch (rel : String) (siren : Siren)
  | ambiguousMatch (rel : String) (siren : Siren)
  | collaborator (msg : String)
deriving DecidableEq, Repr

/-- `Step` from `src/steps.ts`:
`(cur: NavState, cache: Cache, debug: boolean) => Promise<NavState>`. -/
abbrev Step := NavState → Cache → Bool → Except NavError NavState

/-- `reduce` from `src/steps.ts`: empty step list returns `cur` as-is;
otherwise await `cur` (a rejected `cur` propagates), apply the first
step, recurse on its result with the remaining steps. -/
def reduce (cur : Except NavError NavState) (steps : List Step)
    (cache : Cache) (debug : Bool) : Except NavError NavState :=
  match steps with
  | [] => cur
  | s :: rest =>
    match cur with
    | .error e => .error e
    | .ok state => reduce (s state cache debug) rest cache debug

/-- The clone-then-update of the configuration performed by `accept` in
`src/steps.ts`, in the pure value model:
`let newconfig = {...state.config}; if (!newconfig.headers)
newconfig.headers = {};` then append `ctype` to the `Accept` entry
(creating it when absent).  On an entity-shaped configuration the spread
copies the entity's fields, yielding an entity copy with a `headers`
property. -/
def Config.withAccept (ctype : String) : Config → Config
  | .request baseURL headers =>
    let h := headers.getD []
    if hasProp h "Accept" then
      .request baseURL
        (some (setProp h "Accept" (((getProp h "Accept").getD "") ++ ", " ++ ctype)))
    else
      .request baseURL (some (setProp h "Accept" ctype))
  | .entityData e => .entityWithHeaders e (setProp [] "Accept" ctype)
  | .entityWithHeaders e h =>
    if hasProp h "Accept" then
      .entityWithHeaders e
        (setProp h "Accept" (((getProp h "Accept").getD "") ++ ", " ++ ctype))
    else
      .entityWithHeaders e (setProp h "Accept" ctype)

/-- `accept` from `src/steps.ts` (value model): returns a step producing
`new NavState(state.cur, state.root, newconfig, cache.getOr(state.cur))`
where `newconfig` is the cloned configuration with `ctype` appended to
its `Accept` header. -/
def accept (ctype : String) : Step :=
  fun state cache _debug =>
    .ok (NavState.mk state.cur state.root (state.config.withAccept ctype)
      (cache.getOr state.cur))

/-- Modelled from the spec: `getSelf` (`src/utils.ts`, not included) —
the "self-reference" of an entity, "a link on an entity pointing to that
entity's own canonical URI" (glossary): the href of the first of the
entity's own links whose relation set contains `"self"`. -/
def getSelf (e : SubEntity) : Option String :=
  ((e.links.getD []).find? (fun l => l.rel.contains "self")).map (fun l => l.href)

/-- Modelled from the spec: `getSiren` (`src/utils.ts`, not included) —
"fetch/resolve the current resource's hypermedia document (delegated to
the transport collaborator through the cache handle)" (§4.3 step 1): the
document the state's own cache handle resolves to. -/
def getSiren (state : NavState) : Siren :=
  state.cacheEntry.doc

/-- The body of `follow`'s `(siren.entities || []).forEach(...)` loop in
`src/steps.ts`, per entity: no push when the relation set misses `rel`;
a matching entity with a direct `href` pushes a state at that href
keeping `state.config`; otherwise, with a self-reference, a state at the
self URI with the entity itself substituted as the configuration;
neither reference ⇒ nothing pushed. -/
def entityCandidate (rel : String) (state : NavState) (cache : Cache)
    (entity : SubEntity) : Option NavState :=
  if entity.rel.contains rel then
    match entity.href with
    | some href =>
      some (NavState.mk href state.root state.config (cache.getOr href))
    | none =>
      match getSelf entity with
      | some self =>
        some (NavState.mk self state.root (Config.entityData entity)
          (cache.getOr self))
      | none => none
  else none

/-- The body of `follow`'s `(siren.links || []).forEach(...)` loop in
`src/steps.ts`, per link: a matching link pushes a state at its href
keeping `state.config`. -/
def linkCandidate (rel : String) (state : NavState) (cache : Cache)
    (link : SirenLink) : Option NavState :=
  if link.rel.contains rel then
    some (NavState.mk link.href state.root state.config (cache.getOr link.href))
  else none

/-- The `possible` array built by `follow` in `src/steps.ts`: the
entity loop's pushes followed by the link loop's pushes, in declaration
order within each. -/
def followCandidates (rel : String) (state : NavState) (cache : Cache)
    (siren : Siren) : List NavState :=
  ((siren.entities.getD []).filterMap (entityCandidate rel state cache))
  ++ ((siren.links.getD []).filterMap (linkCandidate rel state cache))

/-- `follow` from `src/steps.ts`: resolve the document, collect the
candidates; zero candidates throw the no-match error, more than one with
`first` unset/false throw the ambiguous-match error, otherwise the first
candidate (`possible[0]`) is returned. -/
def follow (rel : String) (first : Bool) : Step :=
  fun state cache _debug =>
    let siren := getSiren state
    match followCandidates rel state cache siren with
    | [] => .error (.noMatch rel siren)
    | p :: rest =>
      if !rest.isEmpty && !first then .error (.ambiguousMatch rel siren)
      else .ok p

/-- The `SirenNav` class: a starting-state handle, the step list and the
shared cache reference. -/
structure SirenNav where
  start : Except NavError NavState
  steps : List Step
  cache : Cache

/-- `SirenNav.create(url, base, cache)`: starting state at `url` with
root `base`, configuration `{ baseURL: base }` and a cache handle
acquired for `url`; empty step list. -/
def SirenNav.create (url : String) (base : String) (cache : Cache) : SirenNav :=
  ⟨.ok (NavState.mk url base (Config.request (some base) none) (cache.getOr url)),
    [], cache⟩

/-- `SirenNav.do(step)`: appends the step, returning a new navigator. -/
def SirenNav.do (n : SirenNav) (step : Step) : SirenNav :=
  ⟨n.start, n.steps ++ [step], n.cache⟩

/-- The `follow` step constructor, under a name visible inside the
`SirenNav` namespace (where `follow` would resolve to the method). -/
def followStep : String → Bool → Step := follow

/-- The `accept` step constructor, under a name visible inside the
`SirenNav` namespace (where `accept` would resolve to the method). -/
def acceptStep : String → Step := accept

/-- `SirenNav.follow(rel, first)` — appends a `follow` step. -/
def SirenNav.follow (n : SirenNav) (rel : String) (first : Bool) : SirenNav :=
  n.do (followStep rel first)

/-- `SirenNav.accept(ctype)` — appends an `accept` step. -/
def SirenNav.accept (n : SirenNav) (ctype : String) : SirenNav :=
  n.do (acceptStep ctype)

/-- `SirenNav.sqaush` (source spelling): reduces the current chain now
and returns a navigator whose starting state is that result, with an
empty step list. -/
def SirenNav.sqaush (n : SirenNav) (debug : Bool) : SirenNav :=
  ⟨reduce n.start n.steps n.cache debug, [], n.cache⟩

/-- `SirenNav.goto(url)`: awaits `this.start` — the starting state, not
the reduced chain — and builds a state at `url` with that starting
state's `root` and `config` and a freshly acquired cache handle; empty
step list.  (In the source a rejected `this.start` leaves the new
promise forever pending; the embedding propagates the error, a case no
claim exercises.) -/
def SirenNav.goto (n : SirenNav) (url : String) : SirenNav :=
  ⟨n.start.map (fun state =>
      NavState.mk url state.root state.config (n.cache.getOr url)),
    [], n.cache⟩

/-- The reduction performed by the terminal operations (`get`,
`getURL`, `performAction`): the final state of the chain, which is then
handed to the transport collaborator. -/
def SirenNav.resolve (n : SirenNav) (debug : Bool) : Except NavError NavState :=
  reduce n.start n.steps n.cache debug

/-- `SirenNav.getURL()`: the `cur` URI of the reduced final state. -/
def SirenNav.getURL (n : SirenNav) (debug : Bool) : Except NavError String :=
  (reduce n.start n.steps n.cache debug).map (fun state => state.cur)

/-! ## Reference-semantics model of `accept`

The source's `accept` clones the configuration with a *shallow* spread:
`let newconfig = {...state.config}` copies the `headers` slot as a
reference, so the old and new configuration share one headers object,
which the subsequent `newconfig.headers["Accept"] += ...` (or `= ctype`)
mutates in place.  To state the frame/mutation claims this model makes
object identity explicit: header objects live in a `Heap` and a
configuration holds a reference (index) to its headers object. -/

/-- A heap of JS header objects; a reference is an index, allocation
appends. -/
structure Heap where
  objs : List HeaderObj
deriving DecidableEq, Repr

/-- Dereference a headers object. -/
def Heap.read (h : Heap) (r : Nat) : HeaderObj :=
  h.objs.getD r []

/-- Overwrite the headers object at a reference. -/
def Heap.write (h : Heap) (r : Nat) (o : HeaderObj) : Heap :=
  ⟨h.objs.set r o⟩

/-- Allocate a fresh headers object, returning the new heap and the
fresh reference. -/
def Heap.alloc (h : Heap) (o : HeaderObj) : Heap × Nat :=
  (⟨h.objs ++ [o]⟩, h.objs.length)

/-- A request configuration under reference semantics: the `headers`
slot holds a *reference* to a heap-allocated headers object (`none` =
no `headers` property, the falsy case of `!newconfig.headers`). -/
structure ConfigRef where
  baseURL : Option String
  headers : Option Nat
deriving DecidableEq, Repr

/-- The configuration update of `accept` from `src/steps.ts` under
reference semantics.  `{...state.config}` copies `baseURL` and the
`headers` reference (the headers object itself is *shared*);
`if (!newconfig.headers) newconfig.headers = {}` allocates a fresh
object only when the slot is empty; the `Accept` write then mutates the
referenced object in place. -/
def acceptRef (ctype : String) (config : ConfigRef) (heap : Heap) :
    ConfigRef × Heap :=
  match config.headers with
  | none =>
    let (heap1, r) := heap.alloc []
    (⟨config.baseURL, some r⟩, heap1.write r (setProp [] "Accept" ctype))
  | some r =>
    let hdrs := heap.read r
    if hasProp hdrs "Accept" then
      (⟨config.baseURL, some r⟩,
        heap.write r
          (setProp hdrs "Accept" (((getProp hdrs "Accept").getD "") ++ ", " ++ ctype)))
    else
      (⟨config.baseURL, some r⟩, heap.write r (setProp hdrs "Accept" ctype))

/-- The `Accept` header value a configuration denotes, read through the
heap. -/
def ConfigRef.acceptValue (c : ConfigRef) (heap : Heap) : Option String :=
  match c.headers with
  | none => none
  | some r => getProp (heap.read r) "Accept"

deriving instance DecidableEq for Except

/-! ## Helper lemmas -/

/-- A rejected starting promise propagates through `reduce` unchanged. -/
theorem reduce_error (e : NavError) (steps : List Step) (cache : Cache)
    (debug : Bool) : reduce (.error e) steps cache debug = .error e := by
  cases steps <;> rfl

/-- Characterization of the entity-loop pushes of `follow`. -/
theorem entityCandidate_eq_some (rel : String) (state : NavState)
    (cache : Cache) (e : SubEntity) (st : NavState) :
    entityCandidate rel state cache e = some st
    ↔ (e.rel.contains rel = true
       ∧ ((∃ h, e.href = some h
             ∧ st = NavState.mk h state.root state.config (cache.getOr h))
          ∨ (e.href = none ∧ ∃ self, getSelf e = some self
             ∧ st = NavState.mk self state.root (Config.entityData e)
                 (cache.getOr self)))) := by
  unfold entityCandidate
  rcases hrel : e.rel.contains rel
  · simp [hrel]
  · rcases hh : e.href with _ | href
    · rcases hs : getSelf e with _ | self
      · simp [hrel, hh, hs]
      · simp [hrel, hh, hs, eq_comm]
    · simp [hrel, hh, eq_comm]

/-- Characterization of the link-loop pushes of `follow`. -/
theorem linkCandidate_eq_some (rel : String) (state : NavState)
    (cache : Cache) (l : SirenLink) (st : NavState) :
    linkCandidate rel state cache l = some st
    ↔ (l.rel.contains rel = true
       ∧ st = NavState.mk l.href state.root state.config
           (cache.getOr l.href)) := by
  unfold linkCandidate
  rcases hrel : l.rel.contains rel <;> simp [hrel, eq_comm]

/-- Every candidate `follow` builds carries a cache handle acquired for
its own `cur` URI. -/
theorem mem_followCandidates_cache (rel : String) (s : NavState) (c : Cache)
    (siren : Siren) (st : NavState)
    (hmem : st ∈ followCandidates rel s c siren) :
    st.cacheEntry = c.getOr st.cur := by
  rw [followCandidates, List.mem_append, List.mem_filterMap,
    List.mem_filterMap] at hmem
  rcases hmem with ⟨e, _, hce⟩ | ⟨l, _, hcl⟩
  · rw [entityCandidate_eq_some] at hce
    rcases hce.2 with ⟨h, _, hst⟩ | ⟨_, self, _, hst⟩ <;> subst hst <;> rfl
  · rw [linkCandidate_eq_some] at hcl
    have hst := hcl.2
    subst hst
    rfl

/-! ## Claims -/

/-- **C6**: for every starting state and step list, `reduce` equals the
strict left-to-right sequential fold of the steps over the starting
state (`Except.bind` sequencing): an empty list returns the starting
state as-is, and a failure propagates to the caller unchanged with no
later step running. -/
theorem reduce_is_strict_left_fold (cur : Except NavError NavState)
    (steps : List Step) (cache : Cache) (debug : Bool) :
    reduce cur steps cache debug
      = steps.foldl (fun acc s => acc.bind (fun st => s st cache debug)) cur
    ∧ reduce cur [] cache debug = cur
    ∧ ∀ e, reduce (.error e) steps cache debug = .error e := by
  refine ⟨?_, rfl, fun e => reduce_error e steps cache debug⟩
  induction steps generalizing cur with
  | nil => rfl
  | cons s rest ih =>
    cases cur with
    | error e =>
      show (Except.error e : Except NavError NavState)
        = List.foldl (fun acc st => acc.bind (fun x => st x cache debug))
            (Except.error e) rest
      rw [← ih (Except.error e)]
      exact (reduce_error e rest cache debug).symm
    | ok st =>
      show reduce (s st cache debug) rest cache debug
        = List.foldl (fun acc stp => acc.bind (fun x => stp x cache debug))
            (s st cache debug) rest
      exact ih _

/-- **C7**: `sqaush` returns a navigator whose starting state is the
resolved result of the original chain and whose step list is empty, so
resolving the squashed navigator gives the same final state as
resolving the original (hence `get` yields the same resource), and a
later `get` reduces over an empty step list (the pre-squash steps are
gone from the navigator). -/
theorem sqaush_resolves_chain (n : SirenNav) (d : Bool) :
    (n.sqaush d).steps = [] ∧ (n.sqaush d).start = n.resolve d
    ∧ (n.sqaush d).resolve d = n.resolve d :=
  ⟨rfl, rfl, rfl⟩

/-- **C2 counterexample**: `goto` does *not* resolve the current chain:
for a navigator with a pending `accept "a"` step, the claim's predicted
starting state (reduce the chain, then override `current` to the new
URI) carries the `Accept` header, but `goto`'s actual starting state is
built from the raw starting state and has no `Accept` header. -/
theorem goto_ignores_pending_steps :
    (((SirenNav.create "u" "b" ⟨fun _ => ⟨none, none⟩⟩).accept "a").goto "v").start
    ≠ (reduce ((SirenNav.create "u" "b" ⟨fun _ => ⟨none, none⟩⟩).accept "a").start
         ((SirenNav.create "u" "b" ⟨fun _ => ⟨none, none⟩⟩).accept "a").steps
         ⟨fun _ => ⟨none, none⟩⟩ false).map
        (fun s => NavState.mk "v" s.root s.config
          ((⟨fun _ => ⟨none, none⟩⟩ : Cache).getOr "v")) := by
  decide

/-- **C2 amended**: `goto(newURI)` returns a navigator with an empty
step list whose starting state is the *raw starting state* of the
receiver — not the resolved chain — with `current` overridden to
`newURI`, `root` and `configuration` taken from that starting state,
and a cache handle freshly acquired for `newURI`; the pending steps and
any configuration they would have accumulated are discarded. -/
theorem goto_overrides_start_state (n : SirenNav) (s : NavState) (url : String)
    (h : n.start = .ok s) :
    (n.goto url).steps = []
    ∧ (n.goto url).start
      = .ok (NavState.mk url s.root s.config (n.cache.getOr url)) := by
  refine ⟨rfl, ?_⟩
  show n.start.map (fun state =>
      NavState.mk url state.root state.config (n.cache.getOr url))
    = .ok (NavState.mk url s.root s.config (n.cache.getOr url))
  rw [h]
  rfl

/-- Witness for the amended C2 at a freshly created navigator. -/
theorem goto_overrides_start_state_witness :
    ((SirenNav.create "u" "b" ⟨fun _ => ⟨none, none⟩⟩).goto "v").steps = []
    ∧ ((SirenNav.create "u" "b" ⟨fun _ => ⟨none, none⟩⟩).goto "v").start
      = .ok (NavState.mk "v" "b" (Config.request (some "b") none)
          ((⟨fun _ => ⟨none, none⟩⟩ : Cache).getOr "v")) :=
  goto_overrides_start_state (SirenNav.create "u" "b" ⟨fun _ => ⟨none, none⟩⟩)
    (NavState.mk "u" "b" (Config.request (some "b") none)
      ((⟨fun _ => ⟨none, none⟩⟩ : Cache).getOr "u")) "v" rfl

/-- Reading back a written cell (in-bounds reference). -/
theorem getD_set_self (l : List HeaderObj) (r : Nat) (o : HeaderObj)
    (h : r < l.length) : (l.set r o).getD r [] = o := by
  induction l generalizing r with
  | nil => simp at h
  | cons a t ih =>
    cases r with
    | zero => rfl
    | succ r => exact ih r (by simpa using h)

/-- Reading back a freshly allocated-and-written cell. -/
theorem getD_set_append_self (l : List HeaderObj) (x o : HeaderObj) :
    ((l ++ [x]).set l.length o).getD l.length [] = o := by
  induction l with
  | nil => rfl
  | cons a t ih => exact ih

/-- Writing a freshly allocated cell leaves the pre-existing cells
unchanged. -/
theorem getD_set_append_fresh (l : List HeaderObj) (x o : HeaderObj) (r : Nat)
    (h : r < l.length) :
    ((l ++ [x]).set l.length o).getD r [] = l.getD r [] := by
  induction l generalizing r with
  | nil => simp at h
  | cons a t ih =>
    cases r with
    | zero => rfl
    | succ r => exact ih r (by simpa using h)

/-- A key absent from a header object reads as `undefined`. -/
theorem getProp_of_not_hasProp (h : HeaderObj) (k : String)
    (hh : hasProp h k = false) : getProp h k = none := by
  induction h with
  | nil => rfl
  | cons a t ih =>
    simp only [hasProp, List.any_cons, Bool.or_eq_false_iff] at hh
    simp only [getProp, List.find?, hh.1]
    exact ih hh.2

/-- A key present in a header object reads as some value. -/
theorem getProp_of_hasProp (h : HeaderObj) (k : String)
    (hh : hasProp h k = true) : ∃ v, getProp h k = some v := by
  induction h with
  | nil => simp [hasProp] at hh
  | cons a t ih =>
    by_cases hk : (a.1 == k) = true
    · exact ⟨a.2, by simp [getProp, List.find?, hk]⟩
    · simp only [hasProp, List.any_cons, Bool.or_eq_true] at hh
      rcases hh with hh | hh
      · exact absurd hh hk
      · obtain ⟨v, hv⟩ := ih hh
        refine ⟨v, ?_⟩
        simp only [getProp, List.find?, Bool.not_eq_true] at hv ⊢
        rw [Bool.not_eq_true] at hk
        rw [hk]
        exact hv

/-- Writing a key makes it read back as the written value. -/
theorem getProp_setProp_self (h : HeaderObj) (k v : String) :
    getProp (setProp h k v) k = some v := by
  induction h with
  | nil => simp [setProp, getProp, List.find?]
  | cons a t ih =>
    by_cases hk : (a.1 == k) = true
    · simp [setProp, getProp, List.find?, hk]
    · rw [Bool.not_eq_true] at hk
      simp only [setProp, hk, Bool.false_eq_true, if_false]
      simp only [getProp, List.find?, hk]
      exact ih

/-- **C1 counterexample**: applying `accept "a"` to a state whose
configuration already carries a headers object with `Accept: "x"`
mutates that very headers object in place — afterwards the *previous*
configuration reads `Accept: "x, a"`, so the previous state's
configuration is not left untouched. -/
theorem accept_mutates_shared_headers :
    ConfigRef.acceptValue ⟨none, some 0⟩ ⟨[[("Accept", "x")]]⟩ = some "x"
    ∧ ConfigRef.acceptValue ⟨none, some 0⟩
        (acceptRef "a" ⟨none, some 0⟩ ⟨[[("Accept", "x")]]⟩).2 = some "x, a"
    ∧ (acceptRef "a" ⟨none, some 0⟩ ⟨[[("Accept", "x")]]⟩).2.read 0
      ≠ (⟨[[("Accept", "x")]]⟩ : Heap).read 0 := by
  decide

/-- **C1 amended**: `accept` clones only the top level of the
configuration, so the headers object is shared; the previous
configuration is untouched exactly when it carries no headers object
(then a fresh object is allocated; in particular a freshly created
navigator's configuration survives `accept("a").accept("b")`
unchanged), while a previous configuration that already has a headers
object — e.g. any pre-existing `Accept` value — is mutated in place
(see the counterexample). -/
theorem accept_frame_when_no_headers (b : Option String) (ctype : String)
    (heap : Heap) (r : Nat) (h : r < heap.objs.length) :
    ((acceptRef ctype ⟨b, none⟩ heap).2).read r = heap.read r
    ∧ ((acceptRef ctype ⟨b, none⟩ heap).1).headers ≠ some r := by
  constructor
  · show Heap.read ⟨(heap.objs ++ [[]]).set heap.objs.length
        (setProp [] "Accept" ctype)⟩ r = heap.read r
    exact getD_set_append_fresh heap.objs [] (setProp [] "Accept" ctype) r h
  · show some heap.objs.length ≠ some r
    intro hcontra
    rw [Option.some.injEq] at hcontra
    omega

/-- Witness for the amended C1: a heap with one pre-existing headers
object, untouched by an `accept` on a headers-free configuration. -/
theorem accept_frame_when_no_headers_witness :
    (0 < (⟨[[("X", "1")]]⟩ : Heap).objs.length)
    ∧ ((acceptRef "a" ⟨none, none⟩ ⟨[[("X", "1")]]⟩).2).read 0
        = (⟨[[("X", "1")]]⟩ : Heap).read 0
    ∧ ((acceptRef "a" ⟨none, none⟩ ⟨[[("X", "1")]]⟩).1).headers ≠ some 0 :=
  ⟨by decide,
    (accept_frame_when_no_headers none "a" ⟨[[("X", "1")]]⟩ 0 (by decide)).1,
    (accept_frame_when_no_headers none "a" ⟨[[("X", "1")]]⟩ 0 (by decide)).2⟩

/-- **C8**: each `accept(ctype)` appends `ctype` to the end of the
existing `Accept` header value, comma-separated and in call order: the
configuration produced by the step reads back the old `Accept` value
extended with `", " ++ ctype` (or just `ctype` when none existed), and
on a freshly created navigator `accept "a"` then `accept "b"` resolves
to a configuration whose `Accept` value is `"a, b"`, not `"b, a"`. -/
theorem accept_appends_in_call_order (c : ConfigRef) (heap : Heap)
    (ctype : String)
    (hwf : ∀ r, c.headers = some r → r < heap.objs.length) :
    ((acceptRef ctype c heap).1).acceptValue (acceptRef ctype c heap).2
      = some (match c.acceptValue heap with
              | some v => v ++ ", " ++ ctype
              | none => ctype)
    ∧ ∀ (u b : String) (cc : Cache) (d : Bool),
        (((SirenNav.create u b cc).accept "a").accept "b").resolve d
          = .ok (NavState.mk u b
              (Config.request (some b) (some [("Accept", "a, b")]))
              (cc.getOr u)) := by
  constructor
  · obtain ⟨b, hdr⟩ := c
    cases hdr with
    | none =>
      simp only [acceptRef, ConfigRef.acceptValue, Heap.alloc, Heap.write, Heap.read]
      rw [getD_set_append_self]
      rfl
    | some r =>
      have hr : r < heap.objs.length := hwf r rfl
      by_cases hp : hasProp (heap.read r) "Accept" = true
      · obtain ⟨v, hv⟩ := getProp_of_hasProp _ _ hp
        have hv' : ConfigRef.acceptValue ⟨b, some r⟩ heap = some v := hv
        have heq : acceptRef ctype ⟨b, some r⟩ heap
            = (⟨b, some r⟩, heap.write r (setProp (heap.read r) "Accept"
                (((getProp (heap.read r) "Accept").getD "") ++ ", " ++ ctype))) := by
          simp [acceptRef, hp]
        rw [heq, hv']
        show getProp ((heap.objs.set r (setProp (heap.read r) "Accept"
            (((getProp (heap.read r) "Accept").getD "") ++ ", " ++ ctype))).getD r [])
            "Accept" = _
        rw [getD_set_self _ _ _ hr, getProp_setProp_self, hv]
        rfl
      · rw [Bool.not_eq_true] at hp
        have hv' : ConfigRef.acceptValue ⟨b, some r⟩ heap = none :=
          getProp_of_not_hasProp _ _ hp
        have heq : acceptRef ctype ⟨b, some r⟩ heap
            = (⟨b, some r⟩, heap.write r (setProp (heap.read r) "Accept" ctype)) := by
          simp [acceptRef, hp]
        rw [heq, hv']
        show getProp
            ((heap.objs.set r (setProp (heap.read r) "Accept" ctype)).getD r [])
            "Accept" = _
        rw [getD_set_self _ _ _ hr, getProp_setProp_self]
  · intro u b cc d
    rfl

/-- Witness for C8: a configuration holding `Accept: "x"`; the step
yields `Accept: "x, a"`. -/
theorem accept_appends_in_call_order_witness :
    ((acceptRef "a" ⟨none, some 0⟩ ⟨[[("Accept", "x")]]⟩).1).acceptValue
      (acceptRef "a" ⟨none, some 0⟩ ⟨[[("Accept", "x")]]⟩).2 = some "x, a" :=
  (accept_appends_in_call_order ⟨none, some 0⟩ ⟨[[("Accept", "x")]]⟩ "a"
    (by decide)).1

/-- **C3**: `follow(rel, first)` fails exactly when the candidate set is
empty (with the no-match error, carrying the relation and the inspected
document) or has more than one element while `first` is false/unset
(with the ambiguous-match error); in every other case it succeeds. -/
theorem follow_failure_cases (rel : String) (first : Bool) (state : NavState)
    (cache : Cache) (d : Bool) :
    (follow rel first state cache d = .error (.noMatch rel (getSiren state))
       ↔ followCandidates rel state cache (getSiren state) = [])
    ∧ (follow rel first state cache d
         = .error (.ambiguousMatch rel (getSiren state))
       ↔ 1 < (followCandidates rel state cache (getSiren state)).length
         ∧ first = false)
    ∧ ((∃ s, follow rel first state cache d = .ok s)
       ↔ followCandidates rel state cache (getSiren state) ≠ []
         ∧ ((followCandidates rel state cache (getSiren state)).length ≤ 1
            ∨ first = true)) := by
  have hf : follow rel first state cache d
      = (match followCandidates rel state cache (getSiren state) with
         | [] => Except.error (NavError.noMatch rel (getSiren state))
         | p :: rest =>
           if !rest.isEmpty && !first
           then Except.error (NavError.ambiguousMatch rel (getSiren state))
           else Except.ok p) := rfl
  rcases hC : followCandidates rel state cache (getSiren state)
    with _ | ⟨p, _ | ⟨q, t⟩⟩
  · rw [hC] at hf
    simp [hf]
  · rw [hC] at hf
    simp [hf]
  · rw [hC] at hf
    cases first
    · simp [hf]
    · simp [hf]

/-- **C4**: whenever `follow` succeeds the result is the first candidate
in the scan order (entity candidates before link candidates, in
declaration order within each); with exactly one candidate the result
is that candidate regardless of the `first` flag, and with a non-empty
candidate list and `first = true` it is the head of the scan order. -/
theorem follow_returns_first_candidate (rel : String) (first : Bool)
    (state : NavState) (cache : Cache) (d : Bool) :
    (∀ s, follow rel first state cache d = .ok s →
       ∃ rest, followCandidates rel state cache (getSiren state) = s :: rest)
    ∧ (∀ p, followCandidates rel state cache (getSiren state) = [p] →
       follow rel first state cache d = .ok p)
    ∧ (∀ p rest,
       followCandidates rel state cache (getSiren state) = p :: rest →
       first = true → follow rel first state cache d = .ok p) := by
  have hf : follow rel first state cache d
      = (match followCandidates rel state cache (getSiren state) with
         | [] => Except.error (NavError.noMatch rel (getSiren state))
         | p :: rest =>
           if !rest.isEmpty && !first
           then Except.error (NavError.ambiguousMatch rel (getSiren state))
           else Except.ok p) := rfl
  refine ⟨?_, ?_, ?_⟩
  · intro s hs
    rcases hC : followCandidates rel state cache (getSiren state)
      with _ | ⟨p, rest⟩
    · rw [hC] at hf
      rw [hf] at hs
      cases hs
    · rw [hC] at hf
      rw [hf] at hs
      have hs' : (if !rest.isEmpty && !first
          then Except.error (NavError.ambiguousMatch rel (getSiren state))
          else Except.ok p) = Except.ok s := hs
      by_cases hcond : (!rest.isEmpty && !first) = true
      · rw [if_pos hcond] at hs'
        cases hs'
      · rw [if_neg hcond] at hs'
        cases hs'
        exact ⟨rest, rfl⟩
  · intro p hC
    rw [hC] at hf
    rw [hf]
    simp
  · intro p rest hC hfirst
    subst hfirst
    rw [hC] at hf
    rw [hf]
    simp

/-- Witness for C4: a document with a single matching link; `follow`
returns it. -/
theorem follow_returns_first_candidate_witness :
    follow "r" false
      (NavState.mk "u" "b" (Config.request none none)
        ((⟨fun _ => ⟨none, some [⟨["r"], "/x"⟩]⟩⟩ : Cache).getOr "u"))
      ⟨fun _ => ⟨none, some [⟨["r"], "/x"⟩]⟩⟩ false
    = .ok (NavState.mk "/x" "b" (Config.request none none)
        ((⟨fun _ => ⟨none, some [⟨["r"], "/x"⟩]⟩⟩ : Cache).getOr "/x")) :=
  (follow_returns_first_candidate "r" false
      (NavState.mk "u" "b" (Config.request none none)
        ((⟨fun _ => ⟨none, some [⟨["r"], "/x"⟩]⟩⟩ : Cache).getOr "u"))
      ⟨fun _ => ⟨none, some [⟨["r"], "/x"⟩]⟩⟩ false).2.1
    (NavState.mk "/x" "b" (Config.request none none)
      ((⟨fun _ => ⟨none, some [⟨["r"], "/x"⟩]⟩⟩ : Cache).getOr "/x"))
    (by decide)

/-- **C5**: the candidate states `follow` builds are exactly: for each
matching sub-entity with a direct `href`, a state at that href with the
current configuration retained; for each matching sub-entity without
`href` but with a self-reference, a state at the self URI with the
sub-entity's own data substituted as the configuration; and for each
matching top-level link, a state at its href with the current
configuration retained. -/
theorem followCandidates_construction (rel : String) (state : NavState)
    (cache : Cache) (siren : Siren) (st : NavState) :
    st ∈ followCandidates rel state cache siren
    ↔ ((∃ e ∈ siren.entities.getD [], e.rel.contains rel = true
          ∧ ∃ h, e.href = some h
          ∧ st = NavState.mk h state.root state.config (cache.getOr h))
       ∨ (∃ e ∈ siren.entities.getD [], e.rel.contains rel = true
          ∧ e.href = none ∧ ∃ self, getSelf e = some self
          ∧ st = NavState.mk self state.root (Config.entityData e)
              (cache.getOr self))
       ∨ (∃ l ∈ siren.links.getD [], l.rel.contains rel = true
          ∧ st = NavState.mk l.href state.root state.config
              (cache.getOr l.href))) := by
  rw [followCandidates, List.mem_append, List.mem_filterMap,
    List.mem_filterMap]
  constructor
  · rintro (⟨e, he, hce⟩ | ⟨l, hl, hcl⟩)
    · rw [entityCandidate_eq_some] at hce
      obtain ⟨hrel, hce⟩ := hce
      rcases hce with ⟨h, hh, hst⟩ | ⟨hh, self, hs, hst⟩
      · exact Or.inl ⟨e, he, hrel, h, hh, hst⟩
      · exact Or.inr (Or.inl ⟨e, he, hrel, hh, self, hs, hst⟩)
    · rw [linkCandidate_eq_some] at hcl
      exact Or.inr (Or.inr ⟨l, hl, hcl.1, hcl.2⟩)
  · rintro (⟨e, he, hrel, h, hh, hst⟩ | ⟨e, he, hrel, hh, self, hs, hst⟩
      | ⟨l, hl, hrel, hst⟩)
    · exact Or.inl ⟨e, he,
        (entityCandidate_eq_some rel state cache e st).mpr
          ⟨hrel, Or.inl ⟨h, hh, hst⟩⟩⟩
    · exact Or.inl ⟨e, he,
        (entityCandidate_eq_some rel state cache e st).mpr
          ⟨hrel, Or.inr ⟨hh, self, hs, hst⟩⟩⟩
    · exact Or.inr ⟨l, hl,
        (linkCandidate_eq_some rel state cache l st).mpr ⟨hrel, hst⟩⟩

/-- **C10**: a sub-entity whose relation set contains the target
relation but which has neither a direct `href` nor a self-reference is
silently skipped (contributes no candidate), and a document whose
matching items are all such entities — with no matching link — makes
`follow` fail with the no-match error. -/
theorem follow_skips_refless_entities (rel : String) (first : Bool)
    (state : NavState) (cache : Cache) (d : Bool) :
    (∀ e : SubEntity, e.rel.contains rel = true → e.href = none →
       getSelf e = none → entityCandidate rel state cache e = none)
    ∧ ((∀ e ∈ (getSiren state).entities.getD [],
          e.rel.contains rel = true → e.href = none ∧ getSelf e = none)
       → (∀ l ∈ (getSiren state).links.getD [],
            l.rel.contains rel = false)
       → follow rel first state cache d
           = .error (.noMatch rel (getSiren state))) := by
  constructor
  · intro e hrel hh hs
    unfold entityCandidate
    simp [hrel, hh, hs]
  · intro hent hlink
    have hempty : followCandidates rel state cache (getSiren state) = [] := by
      rw [followCandidates, List.append_eq_nil]
      constructor
      · rw [List.filterMap_eq_nil_iff]
        intro e he
        unfold entityCandidate
        rcases hrel : e.rel.contains rel
        · simp
        · obtain ⟨hh, hs⟩ := hent e he hrel
          simp [hh, hs]
      · rw [List.filterMap_eq_nil_iff]
        intro l hl
        unfold linkCandidate
        rw [hlink l hl]
        rfl
    have hf : follow rel first state cache d
        = (match followCandidates rel state cache (getSiren state) with
           | [] => Except.error (NavError.noMatch rel (getSiren state))
           | p :: rest =>
             if !rest.isEmpty && !first
             then Except.error (NavError.ambiguousMatch rel (getSiren state))
             else Except.ok p) := rfl
    rw [hempty] at hf
    exact hf

/-- Witness for C10: a document whose only item is a matching entity
with neither `href` nor links; `follow` fails with the no-match
error. -/
theorem follow_skips_refless_entities_witness :
    follow "r" false
      (NavState.mk "u" "b" (Config.request none none)
        ((⟨fun _ => ⟨some [⟨["r"], none, none⟩], none⟩⟩ : Cache).getOr "u"))
      ⟨fun _ => ⟨some [⟨["r"], none, none⟩], none⟩⟩ false
    = .error (.noMatch "r" ⟨some [⟨["r"], none, none⟩], none⟩) :=
  (follow_skips_refless_entities "r" false
      (NavState.mk "u" "b" (Config.request none none)
        ((⟨fun _ => ⟨some [⟨["r"], none, none⟩], none⟩⟩ : Cache).getOr "u"))
      ⟨fun _ => ⟨some [⟨["r"], none, none⟩], none⟩⟩ false).2
    (by decide) (by decide)

/-- **C9**: every state the engine constructs carries a cache handle
obtained from the shared cache's `getOr` for exactly its own `cur` URI:
the `create` starting state, every state an `accept` step returns,
every state a `follow` step returns, every candidate `follow` collects,
and the `goto` starting state. -/
theorem states_carry_own_cache_handle :
    (∀ (url base : String) (c : Cache) (s : NavState),
       (SirenNav.create url base c).start = .ok s
       → s.cacheEntry = c.getOr s.cur)
    ∧ (∀ (ctype : String) (s : NavState) (c : Cache) (d : Bool)
         (s' : NavState),
       accept ctype s c d = .ok s' → s'.cacheEntry = c.getOr s'.cur)
    ∧ (∀ (rel : String) (first : Bool) (s : NavState) (c : Cache) (d : Bool)
         (s' : NavState),
       follow rel first s c d = .ok s' → s'.cacheEntry = c.getOr s'.cur)
    ∧ (∀ (rel : String) (s : NavState) (c : Cache) (siren : Siren)
         (st : NavState),
       st ∈ followCandidates rel s c siren → st.cacheEntry = c.getOr st.cur)
    ∧ (∀ (n : SirenNav) (url : String) (s : NavState),
       (n.goto url).start = .ok s → s.cacheEntry = n.cache.getOr s.cur) := by
  refine ⟨?_, ?_, ?_, ?_, ?_⟩
  · intro url base c s h
    have h' : Except.ok (NavState.mk url base (Config.request (some base) none)
        (c.getOr url)) = Except.ok s := h
    cases h'
    rfl
  · intro ctype s c d s' h
    have h' : Except.ok (NavState.mk s.cur s.root (s.config.withAccept ctype)
        (c.getOr s.cur)) = Except.ok s' := h
    cases h'
    rfl
  · intro rel first s c d s' h
    have hf : follow rel first s c d
        = (match followCandidates rel s c (getSiren s) with
           | [] => Except.error (NavError.noMatch rel (getSiren s))
           | p :: rest =>
             if !rest.isEmpty && !first
             then Except.error (NavError.ambiguousMatch rel (getSiren s))
             else Except.ok p) := rfl
    rw [hf] at h
    rcases hC : followCandidates rel s c (getSiren s) with _ | ⟨p, rest⟩
    · rw [hC] at h
      cases h
    · rw [hC] at h
      have h' : (if !rest.isEmpty && !first
          then Except.error (NavError.ambiguousMatch rel (getSiren s))
          else Except.ok p) = Except.ok s' := h
      by_cases hcond : (!rest.isEmpty && !first) = true
      · rw [if_pos hcond] at h'
        cases h'
      · rw [if_neg hcond] at h'
        cases h'
        exact mem_followCandidates_cache rel s c (getSiren s) s'
          (hC ▸ List.mem_cons_self s' rest)
  · exact mem_followCandidates_cache
  · intro n url s h
    rcases hstart : n.start with e | st0
    · have h' : (Except.error e : Except NavError NavState).map
          (fun state => NavState.mk url state.root state.config
            (n.cache.getOr url)) = Except.ok s := by
        rw [← hstart]
        exact h
      cases h'
    · have h' : (Except.ok (NavState.mk url st0.root st0.config
          (n.cache.getOr url)) : Except NavError NavState) = Except.ok s := by
        have hg : (n.goto url).start = (Except.ok st0).map
            (fun state => NavState.mk url state.root state.config
              (n.cache.getOr url)) := by
          show n.start.map _ = _
          rw [hstart]
        rw [hg] at h
        exact h
      cases h'
      rfl

/-- Witness for C9 at a concrete `create`. -/
theorem states_carry_own_cache_handle_witness :
    (NavState.mk "u" "b" (Config.request (some "b") none)
        ((⟨fun _ => ⟨none, none⟩⟩ : Cache).getOr "u")).cacheEntry
      = (⟨fun _ => ⟨none, none⟩⟩ : Cache).getOr
          (NavState.mk "u" "b" (Config.request (some "b") none)
            ((⟨fun _ => ⟨none, none⟩⟩ : Cache).getOr "u")).cur :=
  states_carry_own_cache_handle.1 "u" "b" ⟨fun _ => ⟨none, none⟩⟩
    (NavState.mk "u" "b" (Config.request (some "b") none)
      ((⟨fun _ => ⟨none, none⟩⟩ : Cache).getOr "u")) rfl

